import Mathlib

/-!
# Verification of the knot-resolver core against its specification

Shallow embedding of the resolver's cache (`lib/cache.c`), resolution plan
(`lib/rplan.c`), iterative driver (`lib/resolve.c`) and worker
(`daemon/worker.c`), together with theorems settling the spec claims.

Machine integers (`uint32_t` timestamps and TTLs, `uint16_t` types and
counts) are represented as `Nat`; all the embedded code paths only compare
and subtract under a guard that rules out wrap-around, so the `Nat`
semantics coincides with the C unsigned semantics on in-range values.
Nullable C pointers are represented as `Option`, out-parameters as fields
of an explicit result structure.
-/

namespace KnotResolver

/-! ## Names and cache keys (`lib/cache.c`: `cache_key`)

A DNS name is a sequence of labels, each label a sequence of bytes.
`cache_key` converts the name to lookup format (lowercased, label order
reversed, each label NUL-terminated) and frames it with the tag byte and
the little-endian RR type, exactly as `cache_key` in `lib/cache.c` does. -/

abbrev Dname := List (List Nat)

/-- Lowercase one byte, as `knot_dname_to_lower` does per byte. -/
def toLowerByte (b : Nat) : Nat := if 65 ≤ b ∧ b ≤ 90 then b + 32 else b

/-- Lowercase a whole name. -/
def dnameToLower (d : Dname) : Dname := d.map (fun l => l.map toLowerByte)

/-- Case-insensitive name equality (`knot_dname_is_equal`). -/
def knot_dname_is_equal (a b : Dname) : Bool := dnameToLower a == dnameToLower b

/-- Lookup format of a name: labels lowercased, order reversed, each
label terminated by a 0 byte (`knot_dname_lf`). -/
def knot_dname_lf (d : Dname) : List Nat :=
  ((dnameToLower d).reverse.map (fun l => l ++ [0])).flatten

/-- Composed cache key `{ u8 tag, lookup-format name, u16 type (LE) }`
(`cache_key` in `lib/cache.c`). -/
def cache_key (tag : Nat) (name : Dname) (rrtype : Nat) : List Nat :=
  [tag] ++ knot_dname_lf name ++ [rrtype % 256, rrtype / 256 % 256]

/-! ## The backing KV store

`lib/cache.c` sits on an opaque transactional ordered map `bytes → bytes`
(`namedb`).  We embed the store as an association list from key bytes to
values; `find`, `insert`, `count` and `clear` are the namedb operations
the cache uses. -/

abbrev Store (α : Type) := List (List Nat × α)

/-- namedb `find`: look a key up. -/
def storeFind {α : Type} (s : Store α) (k : List Nat) : Option α :=
  (s.find? (fun p => p.1 == k)).map Prod.snd

/-- namedb `insert`: overwrite an existing binding or append a new one. -/
def storeInsert {α : Type} (s : Store α) (k : List Nat) (v : α) : Store α :=
  if (s.find? (fun p => p.1 == k)).isSome then
    s.map (fun p => if p.1 == k then (k, v) else p)
  else
    s ++ [(k, v)]

/-- namedb `count`: number of keys in the store. -/
def storeCount {α : Type} (s : Store α) : Nat := s.length

/-- namedb `clear`: truncate the store. -/
def storeClear {α : Type} : Store α := []

/-! ## Cache entries and statistics (`lib/cache.h`) -/

/-- `struct kr_cache_entry`: fixed header plus opaque rdata blob. -/
structure CacheEntry where
  timestamp : Nat
  ttl : Nat
  count : Nat
  rank : Nat
  flags : Nat
  data : List Nat
deriving DecidableEq, Repr

/-- The statistics block of `struct kr_cache`. -/
structure CacheStats where
  hit : Nat
  miss : Nat
  insert : Nat
  delete : Nat
  txn_read : Nat
  txn_write : Nat
deriving DecidableEq, Repr

/-- All-zero statistics, as `kr_cache_open` `memset`s them. -/
def zeroStats : CacheStats := ⟨0, 0, 0, 0, 0, 0⟩

/-! ## `check_lifetime` (`lib/cache.c:179`) -/

inductive LifetimeRes where
  | ok (ts : Option Nat)
  | stale
deriving DecidableEq, Repr

/-- `check_lifetime`: with a null timestamp pointer there is no time
constraint; a timestamp at or before the entry's inception is clamped to
drift 0 ("record cached in the future"); otherwise the entry is fresh
iff the drift does not exceed the stored ttl.  `ok ts` carries the value
the C code leaves in `*timestamp`. -/
def check_lifetime (found : CacheEntry) (timestamp : Option Nat) : LifetimeRes :=
  match timestamp with
  | none => .ok none
  | some t =>
    if t ≤ found.timestamp then
      .ok (some 0)
    else if t - found.timestamp ≤ found.ttl then
      .ok (some (t - found.timestamp))
    else
      .stale

/-! ## `lookup` and `kr_cache_peek` (`lib/cache.c:160,199`)

`validTxn` embeds `txn_is_valid(txn)`; `name : Option Dname` embeds the
nullable name pointer and `entryPtr` the nullable `entry` out-pointer.
`PeekOut.entryOut = none` means the C code never wrote `*entry`;
`tsOut` is the final content of `*timestamp`. -/

/-- `lookup`: build the key and find the raw entry; null on invalid
arguments or a missing key. -/
def lookup (validTxn : Bool) (store : Store CacheEntry) (tag : Nat)
    (name : Option Dname) (typ : Nat) : Option CacheEntry :=
  match name with
  | none => none
  | some n => if validTxn then storeFind store (cache_key tag n typ) else none

inductive PeekRet where
  | einval
  | enoent
  | ok
  | estale
deriving DecidableEq, Repr

structure PeekOut where
  ret : PeekRet
  entryOut : Option CacheEntry
  tsOut : Option Nat
  stats : CacheStats
deriving DecidableEq, Repr

/-- `kr_cache_peek`: argument check, lookup (miss counts a `miss`),
then `*entry := found` followed by the lifetime check; a fresh entry
counts a `hit`, a stale one a `miss`. -/
def kr_cache_peek (validTxn entryPtr : Bool) (store : Store CacheEntry)
    (stats : CacheStats) (tag : Nat) (name : Option Dname) (typ : Nat)
    (ts : Option Nat) : PeekOut :=
  if validTxn = false ∨ name = none ∨ entryPtr = false then
    ⟨.einval, none, ts, stats⟩
  else
    match lookup validTxn store tag name typ with
    | none => ⟨.enoent, none, ts, { stats with miss := stats.miss + 1 }⟩
    | some found =>
      match check_lifetime found ts with
      | .ok ts' => ⟨.ok, some found, ts', { stats with hit := stats.hit + 1 }⟩
      | .stale => ⟨.estale, some found, ts, { stats with miss := stats.miss + 1 }⟩

/-! ## Theorems: claim C1 -/

/-- C1. For an entry stored with inception timestamp `e.timestamp` and
header TTL `e.ttl`, a peek of the same `(tag, name, type)` at time `t`
with a non-null timestamp pointer returns Ok iff `t - e.timestamp ≤
e.ttl` (truncated subtraction realises the future clamp: `t ≤
e.timestamp` gives drift 0).  On Ok the drift is written into the
timestamp out-parameter and `hit` is incremented; otherwise Stale is
returned, the timestamp is untouched and `miss` is incremented. -/
theorem kr_cache_peek_ttl_monotone
    (store : Store CacheEntry) (stats : CacheStats) (tag : Nat) (n : Dname)
    (typ : Nat) (e : CacheEntry) (t : Nat)
    (hfound : storeFind store (cache_key tag n typ) = some e)
    (out : PeekOut)
    (hout : out = kr_cache_peek true true store stats tag (some n) typ (some t)) :
    (t - e.timestamp ≤ e.ttl →
      out.ret = .ok ∧ out.entryOut = some e ∧
      out.tsOut = some (t - e.timestamp) ∧
      out.stats = { stats with hit := stats.hit + 1 }) ∧
    (e.ttl < t - e.timestamp →
      out.ret = .estale ∧ out.entryOut = some e ∧ out.tsOut = some t ∧
      out.stats = { stats with miss := stats.miss + 1 }) ∧
    (t ≤ e.timestamp → out.ret = .ok ∧ out.tsOut = some 0) := by
  subst hout
  have hlk : lookup true store tag (some n) typ = some e := by
    simp [lookup, hfound]
  refine ⟨?_, ?_, ?_⟩
  · intro hle
    have hcl : check_lifetime e (some t) = .ok (some (t - e.timestamp)) := by
      unfold check_lifetime
      by_cases h1 : t ≤ e.timestamp
      · simp [h1, Nat.sub_eq_zero_of_le h1]
      · simp [h1, hle]
    simp [kr_cache_peek, hlk, hcl]
  · intro hlt
    have hcl : check_lifetime e (some t) = .stale := by
      unfold check_lifetime
      have h1 : ¬ t ≤ e.timestamp := by omega
      have h2 : ¬ (t - e.timestamp ≤ e.ttl) := by omega
      simp [h1, h2]
    simp [kr_cache_peek, hlk, hcl]
  · intro hle
    have hcl : check_lifetime e (some t) = .ok (some 0) := by
      unfold check_lifetime
      simp [hle]
    simp [kr_cache_peek, hlk, hcl]

/-- Witness for C1 at a concrete store: an entry cached at time 100 with
ttl 50, peeked at time 120, yields drift 20 and a hit. -/
theorem kr_cache_peek_ttl_monotone_witness :
    storeFind [(cache_key 82 [[110]] 1, (⟨100, 50, 1, 0, 0, []⟩ : CacheEntry))]
      (cache_key 82 [[110]] 1) = some ⟨100, 50, 1, 0, 0, []⟩ ∧
    (120 - 100 ≤ 50 ∧
      (kr_cache_peek true true
        [(cache_key 82 [[110]] 1, (⟨100, 50, 1, 0, 0, []⟩ : CacheEntry))]
        zeroStats 82 (some [[110]]) 1 (some 120)).ret = .ok ∧
      (kr_cache_peek true true
        [(cache_key 82 [[110]] 1, (⟨100, 50, 1, 0, 0, []⟩ : CacheEntry))]
        zeroStats 82 (some [[110]]) 1 (some 120)).tsOut = some 20) := by
  have h := kr_cache_peek_ttl_monotone
    [(cache_key 82 [[110]] 1, (⟨100, 50, 1, 0, 0, []⟩ : CacheEntry))]
    zeroStats 82 [[110]] 1 ⟨100, 50, 1, 0, 0, []⟩ 120 (by decide) _ rfl
  have h1 := h.1 (by decide)
  exact ⟨by decide, by decide, h1.1, by simpa using h1.2.2.1⟩

/-! ## `kr_cache_peek_rank` (`lib/cache.c:317`) -/

inductive RankRet where
  | einval
  | enoent
  | estale
  | rank (r : Nat)
deriving DecidableEq, Repr

/-- `kr_cache_peek_rank`: argument check, raw lookup, lifetime check on a
local copy of the timestamp, returning the stored rank.  Unlike
`kr_cache_peek` it never touches the statistics block; the returned pair
carries the (unchanged) statistics to make that explicit. -/
def kr_cache_peek_rank (validTxn : Bool) (store : Store CacheEntry)
    (stats : CacheStats) (tag : Nat) (name : Option Dname) (typ : Nat)
    (timestamp : Nat) : RankRet × CacheStats :=
  if validTxn = false ∨ name = none then (.einval, stats)
  else
    match lookup validTxn store tag name typ with
    | none => (.enoent, stats)
    | some found =>
      match check_lifetime found (some timestamp) with
      | .ok _ => (.rank found.rank, stats)
      | .stale => (.estale, stats)

/-! ## Theorems: claims C9 and C10 -/

/-- C9. When `kr_cache_peek` finds an entry but the lifetime check fails
it still writes the found (expired) entry into the `entry`
out-parameter before returning Stale; the out-parameter stays unwritten
exactly when the return is InvalidArg or NotFound, NotFound meaning the
key is absent and InvalidArg meaning an argument was invalid. -/
theorem kr_cache_peek_writes_entry_on_stale
    (validTxn entryPtr : Bool) (store : Store CacheEntry) (stats : CacheStats)
    (tag : Nat) (name : Option Dname) (typ : Nat) (ts : Option Nat)
    (out : PeekOut)
    (hout : out = kr_cache_peek validTxn entryPtr store stats tag name typ ts) :
    (out.ret = .estale →
      out.entryOut = lookup validTxn store tag name typ ∧ out.entryOut ≠ none) ∧
    (out.entryOut = none ↔ (out.ret = .einval ∨ out.ret = .enoent)) ∧
    (out.ret = .enoent → lookup validTxn store tag name typ = none) ∧
    (out.ret = .einval ↔ (validTxn = false ∨ name = none ∨ entryPtr = false)) := by
  subst hout
  unfold kr_cache_peek
  by_cases h : validTxn = false ∨ name = none ∨ entryPtr = false
  · simp [h]
  · rw [if_neg h]
    cases hlk : lookup validTxn store tag name typ with
    | none => simp [hlk, h]
    | some found =>
      cases hcl : check_lifetime found ts with
      | ok ts' => simp [hlk, hcl, h]
      | stale => simp [hlk, hcl, h]

/-- Witness for C9: a stale entry (cached at 100, ttl 5, peeked at 120)
is still written to the out-parameter. -/
theorem kr_cache_peek_writes_entry_on_stale_witness :
    (kr_cache_peek true true
        [(cache_key 82 [[110]] 1, (⟨100, 5, 1, 0, 0, []⟩ : CacheEntry))]
        zeroStats 82 (some [[110]]) 1 (some 120)).ret = .estale ∧
    (kr_cache_peek true true
        [(cache_key 82 [[110]] 1, (⟨100, 5, 1, 0, 0, []⟩ : CacheEntry))]
        zeroStats 82 (some [[110]]) 1 (some 120)).entryOut ≠ none := by
  have h := kr_cache_peek_writes_entry_on_stale true true
    [(cache_key 82 [[110]] 1, (⟨100, 5, 1, 0, 0, []⟩ : CacheEntry))]
    zeroStats 82 (some [[110]]) 1 (some 120) _ rfl
  exact ⟨by decide, (h.1 (by decide)).2⟩

/-- C10. `kr_cache_peek_rank` leaves the statistics unchanged on every
input, while `kr_cache_peek` with valid arguments increments exactly one
of the hit/miss counters (and nothing else). -/
theorem kr_cache_peek_rank_stats_frame
    (validTxn entryPtr : Bool) (store : Store CacheEntry) (stats : CacheStats)
    (tag : Nat) (name : Option Dname) (typ : Nat) (t : Nat) (ts : Option Nat)
    (out : PeekOut)
    (hout : out = kr_cache_peek validTxn entryPtr store stats tag name typ ts) :
    (kr_cache_peek_rank validTxn store stats tag name typ t).2 = stats ∧
    (validTxn = true → name ≠ none → entryPtr = true →
      ((out.stats = { stats with hit := stats.hit + 1 }) ∨
       (out.stats = { stats with miss := stats.miss + 1 }))) := by
  subst hout
  constructor
  · unfold kr_cache_peek_rank
    by_cases h : validTxn = false ∨ name = none
    · simp [h]
    · rw [if_neg h]
      cases hlk : lookup validTxn store tag name typ with
      | none => simp
      | some found =>
        cases hcl : check_lifetime found (some t) with
        | ok ts' => simp [hcl]
        | stale => simp [hcl]
  · intro hv hn he
    unfold kr_cache_peek
    have h : ¬ (validTxn = false ∨ name = none ∨ entryPtr = false) := by
      simp [hv, he, hn]
    rw [if_neg h]
    cases hlk : lookup validTxn store tag name typ with
    | none => simp
    | some found =>
      cases hcl : check_lifetime found ts with
      | ok ts' => simp [hcl]
      | stale => simp [hcl]

/-- Witness for C10 at a concrete fresh-entry input: `peek_rank` keeps
the statistics, `peek` bumps the hit counter. -/
theorem kr_cache_peek_rank_stats_frame_witness :
    (kr_cache_peek_rank true
        [(cache_key 82 [[110]] 1, (⟨100, 50, 1, 7, 0, []⟩ : CacheEntry))]
        zeroStats 82 (some [[110]]) 1 120).2 = zeroStats ∧
    ((kr_cache_peek true true
        [(cache_key 82 [[110]] 1, (⟨100, 50, 1, 7, 0, []⟩ : CacheEntry))]
        zeroStats 82 (some [[110]]) 1 (some 120)).stats =
          { zeroStats with hit := 1 } ∨
     (kr_cache_peek true true
        [(cache_key 82 [[110]] 1, (⟨100, 50, 1, 7, 0, []⟩ : CacheEntry))]
        zeroStats 82 (some [[110]]) 1 (some 120)).stats =
          { zeroStats with miss := 1 }) := by
  have h := kr_cache_peek_rank_stats_frame true true
    [(cache_key 82 [[110]] 1, (⟨100, 50, 1, 7, 0, []⟩ : CacheEntry))]
    zeroStats 82 (some [[110]]) 1 120 (some 120) _ rfl
  exact ⟨h.1, h.2 rfl (by decide) rfl⟩

/-! ## Version check on open (`lib/cache.c:43,73`)

For the version check the store is viewed at the raw namedb level: keys
and values are byte lists.  The embedded transactions mirror the C flow:
a write transaction is a working copy of the store, `commit` installs
it, `abort` discards it; the model takes the success path of every
backend call, which is what claim C3 is about ("after a successful
open"). -/

abbrev RawStore := Store (List Nat)

/-- The ABI version key `"V\x02"` = bytes `{0x56, 0x02}`. -/
def KEY_VERSION : List Nat := [86, 2]

/-- `assert_right_version`: begin a RW transaction, look up the version
key; if present, abort (store unchanged); otherwise clear the store when
it is non-empty, then insert the version key and commit. -/
def assert_right_version (s : RawStore) : RawStore :=
  match storeFind s KEY_VERSION with
  | some _ => s
  | none =>
    if 0 < storeCount s then
      storeInsert storeClear KEY_VERSION []
    else
      storeInsert s KEY_VERSION []

/-- `kr_cache_open`: initialize the backend, zero the statistics, run the
version check. -/
def kr_cache_open (s : RawStore) : RawStore × CacheStats :=
  (assert_right_version s, zeroStats)

/-! ## `kr_cache_materialize` (`lib/cache.c:332`) -/

/-- One rdata record: its TTL and opaque payload (`knot_rdata_t`). -/
structure KnotRdata where
  ttl : Nat
  data : List Nat
deriving DecidableEq, Repr

/-- `knot_rrset_t`: owner name, type, class and the rdata set. -/
structure KnotRRset where
  owner : Dname
  rtype : Nat
  rclass : Nat
  rrs : List KnotRdata
deriving DecidableEq, Repr

/-- `kr_cache_materialize`: copy the RRset, keeping the rdata whose TTL
is at least `drift` (the C test is `knot_rdata_ttl(rd) >= drift`), then
decrement each surviving TTL by `drift`. -/
def kr_cache_materialize (src : KnotRRset) (drift : Nat) : KnotRRset :=
  let kept := src.rrs.filter (fun rd => drift ≤ rd.ttl)
  { owner := src.owner,
    rtype := src.rtype,
    rclass := src.rclass,
    rrs := kept.map (fun rd => { rd with ttl := rd.ttl - drift }) }

/-! ## Theorems: claim C3 -/

/-- C3. The version check on open: when the version key is present the
store is left unchanged; when it is absent the version key is inserted,
after clearing the store if it was non-empty — so a successful open of a
non-empty store lacking the version key leaves exactly the version key
in the store.  In every case the opened store contains the version key
or contained it already. -/
theorem kr_cache_open_version_check (s : RawStore) :
    (∀ v, storeFind s KEY_VERSION = some v → kr_cache_open s = (s, zeroStats)) ∧
    (storeFind s KEY_VERSION = none → 0 < storeCount s →
      (kr_cache_open s).1 = [(KEY_VERSION, [])]) ∧
    (storeFind s KEY_VERSION = none → storeCount s = 0 →
      (kr_cache_open s).1 = [(KEY_VERSION, [])]) ∧
    (storeFind (kr_cache_open s).1 KEY_VERSION).isSome = true := by
  refine ⟨?_, ?_, ?_, ?_⟩
  · intro v hv
    simp [kr_cache_open, assert_right_version, hv]
  · intro hv hn
    simp [kr_cache_open, assert_right_version, hv, hn, storeInsert, storeClear]
  · intro hv hn
    have hnil : s = [] := List.length_eq_zero.mp hn
    subst hnil
    simp [kr_cache_open, assert_right_version, storeInsert, storeClear, storeCount, storeFind]
  · unfold kr_cache_open assert_right_version
    cases hv : storeFind s KEY_VERSION with
    | some v => simp [hv]
    | none =>
      by_cases hn : 0 < storeCount s
      · simp [hn, storeInsert, storeClear, storeFind]
      · have hz : storeCount s = 0 := Nat.eq_zero_of_not_pos hn
        have hnil : s = [] := List.length_eq_zero.mp hz
        subst hnil
        simp [storeInsert, storeClear, storeFind, storeCount]

/-- Witness for C3: a non-empty store holding one record entry and no
version key opens to a store holding only the version key. -/
theorem kr_cache_open_version_check_witness :
    storeFind [([82, 110, 0, 1, 0], [7, 7])] KEY_VERSION = none ∧
    0 < storeCount [([82, 110, 0, 1, 0], [7, 7])] ∧
    (kr_cache_open [([82, 110, 0, 1, 0], [7, 7])]).1 = [(KEY_VERSION, [])] := by
  have h := (kr_cache_open_version_check [([82, 110, 0, 1, 0], [7, 7])]).2.1
  exact ⟨by decide, by decide, h (by decide) (by decide)⟩

/-! ## Theorems: claim C2 -/

/-- C2 counterexample. The claim says an rdata whose TTL equals the
drift is dropped; the code keeps it (the test is `>=`), with TTL
decremented to 0: materializing a single rdata of TTL 5 at drift 5
yields one surviving record of TTL 0, not an empty rdata set. -/
theorem kr_cache_materialize_keeps_ttl_eq_drift :
    (kr_cache_materialize ⟨[[110]], 1, 1, [⟨5, [1, 2]⟩]⟩ 5).rrs = [⟨0, [1, 2]⟩] ∧
    ¬ ((kr_cache_materialize ⟨[[110]], 1, 1, [⟨5, [1, 2]⟩]⟩ 5).rrs = []) := by
  constructor
  · rfl
  · decide

/-- C2 amended. `materialize` copies exactly the rdata whose TTL is
**greater than or equal to** the drift (so a record whose TTL equals the
drift survives with TTL 0), decrements each survivor's TTL by the
drift, and preserves owner, type and class. -/
theorem kr_cache_materialize_filters_ge_drift (src : KnotRRset) (drift : Nat) :
    ((kr_cache_materialize src drift).owner = src.owner ∧
     (kr_cache_materialize src drift).rtype = src.rtype ∧
     (kr_cache_materialize src drift).rclass = src.rclass) ∧
    (kr_cache_materialize src drift).rrs.length =
      (src.rrs.filter (fun rd => drift ≤ rd.ttl)).length ∧
    (∀ rd, rd ∈ src.rrs → drift ≤ rd.ttl →
      (⟨rd.ttl - drift, rd.data⟩ : KnotRdata) ∈ (kr_cache_materialize src drift).rrs) ∧
    (∀ rd', rd' ∈ (kr_cache_materialize src drift).rrs →
      ∃ rd, rd ∈ src.rrs ∧ drift ≤ rd.ttl ∧
        rd'.ttl = rd.ttl - drift ∧ rd'.data = rd.data) := by
  refine ⟨⟨rfl, rfl, rfl⟩, ?_, ?_, ?_⟩
  · simp [kr_cache_materialize]
  · intro rd hmem httl
    simp only [kr_cache_materialize, List.mem_map]
    refine ⟨rd, ?_, rfl⟩
    simp [List.mem_filter, hmem, httl]
  · intro rd' hmem
    simp only [kr_cache_materialize, List.mem_map] at hmem
    obtain ⟨rd, hrd, hed⟩ := hmem
    rw [List.mem_filter] at hrd
    refine ⟨rd, hrd.1, by simpa using hrd.2, ?_, ?_⟩
    · rw [← hed]
    · rw [← hed]

/-- Witness for C2 (amended): two records of TTL 5 and 9, drift 5; both
survive, with TTLs 0 and 4. -/
theorem kr_cache_materialize_filters_ge_drift_witness :
    (⟨0, [1]⟩ : KnotRdata) ∈ (kr_cache_materialize ⟨[[110]], 1, 1, [⟨5, [1]⟩, ⟨9, [2]⟩]⟩ 5).rrs ∧
    (kr_cache_materialize ⟨[[110]], 1, 1, [⟨5, [1]⟩, ⟨9, [2]⟩]⟩ 5).rrs.length =
      ((([⟨5, [1]⟩, ⟨9, [2]⟩] : List KnotRdata)).filter (fun rd => 5 ≤ rd.ttl)).length := by
  have h := kr_cache_materialize_filters_ge_drift ⟨[[110]], 1, 1, [⟨5, [1]⟩, ⟨9, [2]⟩]⟩ 5
  exact ⟨h.2.2.1 ⟨5, [1]⟩ (by decide) (by decide), h.2.1⟩

/-! ## Resolution plan (`lib/rplan.c`)

`kr_rplan_satisfies` only reads a query's identifiers and its `parent`
pointer, so a query is embedded as those fields; the root query's NULL
parent is `none`. -/

/-- `struct kr_query`, restricted to the fields the claims read. -/
inductive KrQuery where
  | mk (sname : Dname) (sclass : Nat) (stype : Nat) (parent : Option KrQuery)

def KrQuery.sname : KrQuery → Dname
  | .mk n _ _ _ => n

def KrQuery.sclass : KrQuery → Nat
  | .mk _ c _ _ => c

def KrQuery.stype : KrQuery → Nat
  | .mk _ _ t _ => t

def KrQuery.parent : KrQuery → Option KrQuery
  | .mk _ _ _ p => p

/-- The `QUERY_PROVIDES` macro of `lib/rplan.c`: same class, same type,
case-insensitively equal name. -/
def QUERY_PROVIDES (q : KrQuery) (name : Dname) (cls typ : Nat) : Bool :=
  decide (q.sclass = cls) && decide (q.stype = typ) &&
    knot_dname_is_equal q.sname name

/-- `kr_rplan_satisfies`: walk the `parent` chain from `closure` (the
walk starts at `closure` itself) and report whether any query on the
chain provides `(name, cls, typ)`. -/
def kr_rplan_satisfies : Option KrQuery → Dname → Nat → Nat → Bool
  | none, _, _, _ => false
  | some (.mk sn sc st p), name, cls, typ =>
    QUERY_PROVIDES (.mk sn sc st p) name cls typ ||
      kr_rplan_satisfies p name cls typ

/-- The parent chain from a query: the query itself followed by the
chain of its parent. -/
def ancestors : Option KrQuery → List KrQuery
  | none => []
  | some (.mk sn sc st p) => .mk sn sc st p :: ancestors p

/-- Helper: the walk of `kr_rplan_satisfies` succeeds iff some element
of the parent chain provides the identifiers. -/
def satisfies_chain_iff : ∀ (oq : Option KrQuery) (name : Dname) (cls typ : Nat),
    kr_rplan_satisfies oq name cls typ = true ↔
      ∃ a, a ∈ ancestors oq ∧ a.sclass = cls ∧ a.stype = typ ∧
        dnameToLower a.sname = dnameToLower name
  | none, name, cls, typ => by
    simp [kr_rplan_satisfies, ancestors]
  | some (.mk sn sc st p), name, cls, typ => by
    have ih := satisfies_chain_iff p name cls typ
    simp only [kr_rplan_satisfies, ancestors, Bool.or_eq_true, ih,
      QUERY_PROVIDES, Bool.and_eq_true, decide_eq_true_eq,
      knot_dname_is_equal, beq_iff_eq, List.mem_cons]
    constructor
    · rintro (⟨⟨hc, ht⟩, hn⟩ | ⟨a, ha, hc, ht, hn⟩)
      · exact ⟨.mk sn sc st p, Or.inl rfl, hc, ht, hn⟩
      · exact ⟨a, Or.inr ha, hc, ht, hn⟩
    · rintro ⟨a, (rfl | ha), hc, ht, hn⟩
      · exact Or.inl ⟨⟨hc, ht⟩, hn⟩
      · exact Or.inr ⟨a, ha, hc, ht, hn⟩

/-! ## Theorems: claim C5 -/

/-- C5. `kr_rplan_satisfies q name cls typ` is true iff some query on
the parent chain of `q` (reached from `q` by following zero or more
`parent` pointers) has `sclass = cls`, `stype = typ` and an `sname`
equal to `name` as a case-insensitive DNS name. -/
theorem kr_rplan_satisfies_iff_ancestor (q : KrQuery) (name : Dname)
    (cls typ : Nat) :
    kr_rplan_satisfies (some q) name cls typ = true ↔
      ∃ a, a ∈ ancestors (some q) ∧ a.sclass = cls ∧ a.stype = typ ∧
        dnameToLower a.sname = dnameToLower name :=
  satisfies_chain_iff (some q) name cls typ

/-! ## Plan sequences (`kr_rplan_push` / `kr_rplan_pop`)

For the pending/resolved bookkeeping queries are identified by the
(distinct) addresses of their arena allocations, embedded as `Nat` ids;
the intrusive doubly-linked lists of `struct kr_rplan` become `List Nat`
with the stack top at the tail, as in the C (`add_tail`, top = TAIL). -/

/-- The two ordered sequences of `struct kr_rplan`. -/
structure RPlan where
  pending : List Nat
  resolved : List Nat
deriving DecidableEq, Repr

/-- `kr_rplan_push` restricted to the list bookkeeping: a freshly
created query is appended at the tail (= stack top) of `pending`. -/
def kr_rplan_push (r : RPlan) (q : Nat) : RPlan :=
  ⟨r.pending ++ [q], r.resolved⟩

/-- `kr_rplan_pop`: `rem_node` unlinks the query's node, `add_tail`
appends it to `resolved`. -/
def kr_rplan_pop (r : RPlan) (q : Nat) : RPlan :=
  ⟨r.pending.erase q, r.resolved ++ [q]⟩

/-- The plan invariant: each query lives in exactly one of the two
sequences, and in it once (distinct arena allocations). -/
def rplanWf (r : RPlan) : Prop := (r.pending ++ r.resolved).Nodup

/-! ## Theorems: claim C6 -/

/-- C6. `push` then `pop` of the pushed (fresh) query restores `pending`
and appends exactly that query to `resolved`; and in general a pop of a
pending query preserves the one-of-the-two-sequences invariant, moves
the query from `pending` to the tail of `resolved`, and moves no other
query. -/
theorem kr_rplan_push_pop (r : RPlan) (q : Nat) :
    (q ∉ r.pending →
      kr_rplan_pop (kr_rplan_push r q) q = ⟨r.pending, r.resolved ++ [q]⟩) ∧
    (rplanWf r → q ∈ r.pending →
      rplanWf (kr_rplan_pop r q) ∧
      (kr_rplan_pop r q).resolved = r.resolved ++ [q] ∧
      q ∉ (kr_rplan_pop r q).pending ∧
      q ∈ (kr_rplan_pop r q).resolved ∧
      (∀ x, (x ∈ (kr_rplan_pop r q).pending ∨ x ∈ (kr_rplan_pop r q).resolved) ↔
        (x ∈ r.pending ∨ x ∈ r.resolved))) := by
  constructor
  · intro hq
    unfold kr_rplan_pop kr_rplan_push
    simp [List.erase_append_right _ hq]
  · intro hwf hq
    rw [rplanWf, List.nodup_append] at hwf
    obtain ⟨hp, hr, hdisj⟩ := hwf
    have hqr : q ∉ r.resolved := fun hmem => hdisj hq hmem
    refine ⟨?_, rfl, ?_, ?_, ?_⟩
    · show (r.pending.erase q ++ (r.resolved ++ [q])).Nodup
      rw [List.nodup_append]
      refine ⟨hp.erase q, ?_, ?_⟩
      · rw [List.nodup_append]
        refine ⟨hr, List.nodup_singleton q, ?_⟩
        intro x hx hmem
        rw [List.mem_singleton] at hmem
        subst hmem
        exact hqr hx
      · intro x hx hmem
        have hx' := (hp.mem_erase_iff).mp hx
        rcases List.mem_append.mp hmem with h1 | h1
        · exact hdisj hx'.2 h1
        · exact hx'.1 (by simpa using h1)
    · intro hmem
      exact ((hp.mem_erase_iff).mp hmem).1 rfl
    · exact List.mem_append_right _ (List.mem_singleton_self q)
    · intro x
      simp only [kr_rplan_pop, List.mem_append, List.mem_singleton]
      constructor
      · rintro (hx | hx | rfl)
        · exact Or.inl (List.mem_of_mem_erase hx)
        · exact Or.inr hx
        · exact Or.inl hq
      · rintro (hx | hx)
        · by_cases hxq : x = q
          · subst hxq; exact Or.inr (Or.inr rfl)
          · exact Or.inl ((hp.mem_erase_iff).mpr ⟨hxq, hx⟩)
        · exact Or.inr (Or.inl hx)

/-- Witness for C6: pushing query 3 onto a plan with pending `[1, 2]`
and popping it restores `[1, 2]` and resolves `[3]`; popping 1 from the
same plan moves it to `resolved`. -/
theorem kr_rplan_push_pop_witness :
    kr_rplan_pop (kr_rplan_push ⟨[1, 2], []⟩ 3) 3 = ⟨[1, 2], [3]⟩ ∧
    (kr_rplan_pop ⟨[1, 2], []⟩ 1).resolved = [1] ∧
    1 ∉ (kr_rplan_pop ⟨[1, 2], []⟩ 1).pending := by
  have h1 := (kr_rplan_push_pop ⟨[1, 2], []⟩ 3).1 (by decide)
  have h2 := (kr_rplan_push_pop ⟨[1, 2], []⟩ 1).2 (by unfold rplanWf; decide) (by decide)
  exact ⟨h1, by simpa using h2.2.1, h2.2.2.1⟩

/-! ## Layer states and the worker step loop (`daemon/worker.c:594`)

The layer pipeline states of `knot_layer` as the worker consumes them.
The `kr_resolve_consume`/`kr_resolve_produce` calls are abstracted by an
oracle `produce : Nat → KnotState` giving the state returned by the
n-th produce call of the step; the consume result is the loop's entry
state.  `KR_ITER_LIMIT` is the per-task iteration limit the spec puts at
50 (`ITER_LIMIT` in `lib/resolve.c` is `#define ITER_LIMIT 50`). -/

inductive KnotState where
  | noop
  | consume
  | produce
  | done
  | fail
deriving DecidableEq, Repr

def KR_ITER_LIMIT : Nat := 50

/-- Result of the produce loop of one `qr_task_step`: how many produce
calls ran, the final `iter_count`, the final layer state, and whether
the iteration limit fired. -/
structure LoopOut where
  calls : Nat
  finalIter : Nat
  state : KnotState
  limitHit : Bool
deriving DecidableEq, Repr

/-- The `while (state == KNOT_STATE_PRODUCE)` loop of `qr_task_step`:
each round runs one produce call, pre-increments `iter_count` and, when
the count exceeds `KR_ITER_LIMIT`, finalizes with FAIL (modelled by
`state := fail, limitHit := true`). -/
def produceLoop (produce : Nat → KnotState) (iter : Nat) (state : KnotState) :
    LoopOut :=
  if state = .produce then
    let s1 := produce iter
    let iter1 := iter + 1
    if KR_ITER_LIMIT < iter1 then
      ⟨1, iter1, .fail, true⟩
    else
      let r := produceLoop produce iter1 s1
      ⟨r.calls + 1, r.finalIter, r.state, r.limitHit⟩
  else
    ⟨0, iter, state, false⟩
termination_by KR_ITER_LIMIT + 1 - iter
decreasing_by omega

def KNOT_RCODE_NOERROR : Nat := 0
def KNOT_RCODE_SERVFAIL : Nat := 2

/-- Modelled from the spec: `kr_resolve_finish` (the worker's resolver
entry points live in a newer `lib/resolve.c` that is not among the
sources; only `qr_task_finalize`'s call to it is).  Per the spec,
finalizing with FAIL sets RCODE SERVFAIL in the answer; as in the
in-source `resolve_iterative`, an already-set error RCODE is kept. -/
def kr_resolve_finish_rcode (state : KnotState) (rcode : Nat) : Nat :=
  if state = .fail ∧ rcode = KNOT_RCODE_NOERROR then KNOT_RCODE_SERVFAIL
  else rcode

inductive StepRet where
  | stale
  | finalized (state : KnotState)
  | continued (state : KnotState)
deriving DecidableEq, Repr

/-- Outcome of one `qr_task_step`: the control-flow result, the answer's
RCODE after it, the task's `iter_count`, and the number of produce calls
the step made. -/
structure StepOut where
  ret : StepRet
  rcode : Nat
  iter : Nat
  calls : Nat
deriving DecidableEq, Repr

/-- `qr_task_step`, up to the point where a non-terminal state leaves
the loop (the transmission paths that follow do not touch `iter_count`
or the RCODE): a finished task yields `ESTALE`; otherwise the consume
result feeds the produce loop; hitting the iteration limit finalizes
with FAIL, a terminal DONE/FAIL state finalizes with that state, and
anything else continues to the I/O paths. -/
def qr_task_step_model (finished : Bool) (iter : Nat) (rcode : Nat)
    (consumeState : KnotState) (produce : Nat → KnotState) : StepOut :=
  if finished then
    ⟨.stale, rcode, iter, 0⟩
  else
    let r := produceLoop produce iter consumeState
    if r.limitHit then
      ⟨.finalized .fail, kr_resolve_finish_rcode .fail rcode, r.finalIter, r.calls⟩
    else if r.state = .done ∨ r.state = .fail then
      ⟨.finalized r.state, kr_resolve_finish_rcode r.state rcode, r.finalIter, r.calls⟩
    else
      ⟨.continued r.state, rcode, r.finalIter, r.calls⟩

/-- Helper: the produce loop increments `iter_count` once per produce
call, stops within `max (KR_ITER_LIMIT + 1 - iter) 1` calls, reports
`limitHit` exactly when the final count exceeds the limit, and then
leaves state FAIL. -/
theorem produceLoop_spec (produce : Nat → KnotState) :
    ∀ (iter : Nat) (state : KnotState),
      (produceLoop produce iter state).finalIter =
        iter + (produceLoop produce iter state).calls ∧
      (produceLoop produce iter state).calls ≤ max (KR_ITER_LIMIT + 1 - iter) 1 ∧
      ((produceLoop produce iter state).limitHit = true →
        (produceLoop produce iter state).state = .fail ∧
        KR_ITER_LIMIT < (produceLoop produce iter state).finalIter) ∧
      ((produceLoop produce iter state).limitHit = false →
        (produceLoop produce iter state).state ≠ .produce ∧
        (produceLoop produce iter state).finalIter ≤ max iter KR_ITER_LIMIT) := by
  intro iter state
  induction iter, state using produceLoop.induct produce with
  | case1 iter iter1 hlim =>
    have hlim' : KR_ITER_LIMIT < iter + 1 := hlim
    have h : produceLoop produce iter .produce = ⟨1, iter + 1, .fail, true⟩ := by
      rw [produceLoop]
      simp [hlim']
    rw [h]
    exact ⟨by simp, by simp,
      fun _ => ⟨rfl, by simpa using hlim'⟩, by simp⟩
  | case2 iter s1 iter1 hlim ih =>
    have hlim' : ¬ KR_ITER_LIMIT < iter + 1 := hlim
    have h : produceLoop produce iter .produce =
        ⟨(produceLoop produce (iter + 1) (produce iter)).calls + 1,
         (produceLoop produce (iter + 1) (produce iter)).finalIter,
         (produceLoop produce (iter + 1) (produce iter)).state,
         (produceLoop produce (iter + 1) (produce iter)).limitHit⟩ := by
      rw [produceLoop]
      simp [hlim']
    have ih1 : (produceLoop produce (iter + 1) (produce iter)).finalIter =
        (iter + 1) + (produceLoop produce (iter + 1) (produce iter)).calls := ih.1
    have ih2 : (produceLoop produce (iter + 1) (produce iter)).calls ≤
        max (KR_ITER_LIMIT + 1 - (iter + 1)) 1 := ih.2.1
    have ih3 : (produceLoop produce (iter + 1) (produce iter)).limitHit = true →
        (produceLoop produce (iter + 1) (produce iter)).state = .fail ∧
        KR_ITER_LIMIT < (produceLoop produce (iter + 1) (produce iter)).finalIter :=
      ih.2.2.1
    have ih4 : (produceLoop produce (iter + 1) (produce iter)).limitHit = false →
        (produceLoop produce (iter + 1) (produce iter)).state ≠ .produce ∧
        (produceLoop produce (iter + 1) (produce iter)).finalIter ≤
          max (iter + 1) KR_ITER_LIMIT :=
      ih.2.2.2
    rw [h]
    refine ⟨by simp; omega, by simp; omega, fun hh => by simpa using ih3 hh, ?_⟩
    intro hh
    have h4 := ih4 hh
    exact ⟨by simpa using h4.1, by simp; omega⟩
  | case3 iter state hs =>
    have h : produceLoop produce iter state = ⟨0, iter, state, false⟩ := by
      rw [produceLoop]
      simp [hs]
    rw [h]
    exact ⟨by simp, by simp, by simp,
      fun _ => ⟨hs, by simp⟩⟩

/-! ## `resolve_iterative` (`lib/resolve.c:130`)

The in-source iterative driver has the same shape as the worker loop:
`iterate` is abstracted by an oracle returning the call's status and
whether the plan is empty afterwards. -/

inductive KnotRet where
  | eok
  | elimit
  | err
deriving DecidableEq, Repr

/-- `ITER_LIMIT` of `lib/resolve.c` (`#define ITER_LIMIT 50`). -/
def ITER_LIMIT : Nat := 50

/-- The `while ((ret == KNOT_EOK) && !kr_rplan_empty(..))` loop of
`resolve_iterative`: each round runs `iterate`, pre-increments the local
`iter_count` and overwrites the status with `ELIMIT` once the count
exceeds `ITER_LIMIT` (which also exits the loop). -/
def resolveLoop (iterate : Nat → KnotRet × Bool) (count : Nat) (ret : KnotRet)
    (empty : Bool) : Nat × KnotRet :=
  if ret = .eok ∧ empty = false then
    let step := iterate count
    let count1 := count + 1
    if ITER_LIMIT < count1 then
      (count1, .elimit)
    else
      resolveLoop iterate count1 step.1 step.2
  else
    (count, ret)
termination_by ITER_LIMIT + 1 - count
decreasing_by omega

structure ResolveOut where
  iters : Nat
  ret : KnotRet
  rcode : Nat
deriving DecidableEq, Repr

/-- `resolve_iterative`: run the loop from a zero counter and status
`KNOT_EOK`, then set RCODE SERVFAIL on internal failure if the answer
still has RCODE NOERROR. -/
def resolve_iterative (iterate : Nat → KnotRet × Bool) (initEmpty : Bool)
    (rcode : Nat) : ResolveOut :=
  let r := resolveLoop iterate 0 .eok initEmpty
  ⟨r.1, r.2,
    if r.2 ≠ .eok ∧ rcode = KNOT_RCODE_NOERROR then KNOT_RCODE_SERVFAIL
    else rcode⟩

/-- Helper: from a counter at most `ITER_LIMIT`, the resolve loop stops
with a counter at most `ITER_LIMIT + 1`, and a counter beyond the limit
means the status was overwritten with `ELIMIT`. -/
theorem resolveLoop_bound (iterate : Nat → KnotRet × Bool) :
    ∀ (count : Nat) (ret : KnotRet) (empty : Bool), count ≤ ITER_LIMIT →
      (resolveLoop iterate count ret empty).1 ≤ ITER_LIMIT + 1 ∧
      (ITER_LIMIT < (resolveLoop iterate count ret empty).1 →
        (resolveLoop iterate count ret empty).2 = .elimit) := by
  intro count ret empty
  induction count, ret, empty using resolveLoop.induct iterate with
  | case1 count ret empty hc count1 hlim =>
    intro hle
    obtain ⟨h1, h2⟩ := hc
    subst h1 h2
    have h : resolveLoop iterate count .eok false = (count + 1, .elimit) := by
      rw [resolveLoop]
      simp [hlim]
    rw [h]
    exact ⟨by omega, fun _ => rfl⟩
  | case2 count ret empty hc step count1 hlim ih =>
    intro hle
    obtain ⟨h1, h2⟩ := hc
    subst h1 h2
    have hlim' : ¬ ITER_LIMIT < count + 1 := hlim
    have h : resolveLoop iterate count .eok false =
        resolveLoop iterate (count + 1) (iterate count).1 (iterate count).2 := by
      rw [resolveLoop]
      simp [hlim']
    rw [h]
    exact ih (by omega)
  | case3 count ret empty hc =>
    intro hle
    have h : resolveLoop iterate count ret empty = (count, ret) := by
      rw [resolveLoop]
      simp only [if_neg hc]
    rw [h]
    exact ⟨by omega, fun hgt => absurd hgt (by simp; omega)⟩

/-! ## Theorems: claim C4 -/

/-- C4. In the worker's step, `iter_count` grows by exactly one per
produce call; once the count exceeds `KR_ITER_LIMIT` (50) the task is
finalized with state FAIL and the answer RCODE becomes SERVFAIL (when it
was still NOERROR); and the consume/produce loop of a single step always
terminates, within `max (KR_ITER_LIMIT + 1 - iter) 1` produce calls.
The in-source `resolve_iterative` counterpart likewise runs at most
`ITER_LIMIT + 1` iterations and turns an exceeded limit into `ELIMIT`
and a SERVFAIL answer. -/
theorem iteration_limit_is_fatal
    (produce : Nat → KnotState) (consumeState : KnotState) (iter rcode : Nat)
    (iterate : Nat → KnotRet × Bool) (initEmpty : Bool) (rc0 : Nat)
    (out : StepOut)
    (hout : out = qr_task_step_model false iter rcode consumeState produce) :
    (out.iter = iter + out.calls) ∧
    (out.calls ≤ max (KR_ITER_LIMIT + 1 - iter) 1) ∧
    (iter ≤ KR_ITER_LIMIT → KR_ITER_LIMIT < out.iter →
      out.ret = .finalized .fail ∧
      (rcode = KNOT_RCODE_NOERROR → out.rcode = KNOT_RCODE_SERVFAIL)) ∧
    ((resolve_iterative iterate initEmpty rc0).iters ≤ ITER_LIMIT + 1 ∧
     (ITER_LIMIT < (resolve_iterative iterate initEmpty rc0).iters →
       (resolve_iterative iterate initEmpty rc0).ret = .elimit ∧
       (rc0 = KNOT_RCODE_NOERROR →
         (resolve_iterative iterate initEmpty rc0).rcode = KNOT_RCODE_SERVFAIL))) := by
  obtain ⟨p1, p2, p3, p4⟩ := produceLoop_spec produce iter consumeState
  have hstep : out =
      (if (produceLoop produce iter consumeState).limitHit = true then
        (⟨.finalized .fail, kr_resolve_finish_rcode .fail rcode,
          (produceLoop produce iter consumeState).finalIter,
          (produceLoop produce iter consumeState).calls⟩ : StepOut)
      else if (produceLoop produce iter consumeState).state = .done ∨
              (produceLoop produce iter consumeState).state = .fail then
        ⟨.finalized (produceLoop produce iter consumeState).state,
          kr_resolve_finish_rcode (produceLoop produce iter consumeState).state rcode,
          (produceLoop produce iter consumeState).finalIter,
          (produceLoop produce iter consumeState).calls⟩
      else
        ⟨.continued (produceLoop produce iter consumeState).state, rcode,
          (produceLoop produce iter consumeState).finalIter,
          (produceLoop produce iter consumeState).calls⟩) := by
    rw [hout, qr_task_step_model]
    simp
  have hrl := resolveLoop_bound iterate 0 .eok initEmpty (by omega)
  refine ⟨?_, ?_, ?_, ?_, ?_⟩
  · rw [hstep]
    by_cases hh : (produceLoop produce iter consumeState).limitHit = true
    · simpa [hh] using p1
    · rw [if_neg hh]
      by_cases hd : (produceLoop produce iter consumeState).state = .done ∨
          (produceLoop produce iter consumeState).state = .fail
      · simpa [hd] using p1
      · simpa [hd] using p1
  · rw [hstep]
    by_cases hh : (produceLoop produce iter consumeState).limitHit = true
    · simpa [hh] using p2
    · rw [if_neg hh]
      by_cases hd : (produceLoop produce iter consumeState).state = .done ∨
          (produceLoop produce iter consumeState).state = .fail
      · simpa [hd] using p2
      · simpa [hd] using p2
  · intro hle hgt
    by_cases hh : (produceLoop produce iter consumeState).limitHit = true
    · rw [hstep, if_pos hh]
      refine ⟨rfl, fun hrc => ?_⟩
      simp [kr_resolve_finish_rcode, hrc]
    · exfalso
      have hb : (produceLoop produce iter consumeState).limitHit = false := by
        simpa using hh
      have h4 := (p4 hb).2
      have hmax : max iter KR_ITER_LIMIT = KR_ITER_LIMIT := by omega
      rw [hmax] at h4
      rw [hstep, if_neg hh] at hgt
      by_cases hd : (produceLoop produce iter consumeState).state = .done ∨
          (produceLoop produce iter consumeState).state = .fail
      · rw [if_pos hd] at hgt
        simp at hgt
        omega
      · rw [if_neg hd] at hgt
        simp at hgt
        omega
  · exact hrl.1
  · intro hgt
    have he : (resolveLoop iterate 0 .eok initEmpty).2 = .elimit :=
      hrl.2 (by simpa [resolve_iterative] using hgt)
    refine ⟨by simpa [resolve_iterative] using he, fun hrc => ?_⟩
    simp [resolve_iterative, he, hrc, KNOT_RCODE_NOERROR]

/-- Witness for C4: at `iter_count = 50` one more produce call trips the
limit: the step finalizes with FAIL and a SERVFAIL answer. -/
theorem iteration_limit_is_fatal_witness :
    (qr_task_step_model false 50 0 .produce (fun _ => .produce)).iter =
      50 + (qr_task_step_model false 50 0 .produce (fun _ => .produce)).calls ∧
    (qr_task_step_model false 50 0 .produce (fun _ => .produce)).ret =
      .finalized .fail ∧
    (qr_task_step_model false 50 0 .produce (fun _ => .produce)).rcode =
      KNOT_RCODE_SERVFAIL := by
  have hloop : produceLoop (fun _ => .produce) 50 .produce = ⟨1, 51, .fail, true⟩ := by
    rw [produceLoop]
    simp [KR_ITER_LIMIT]
  have hmodel : qr_task_step_model false 50 0 .produce (fun _ => .produce) =
      ⟨.finalized .fail, KNOT_RCODE_SERVFAIL, 51, 1⟩ := by
    rw [qr_task_step_model]
    simp [hloop, kr_resolve_finish_rcode, KNOT_RCODE_NOERROR, KNOT_RCODE_SERVFAIL]
  have h := iteration_limit_is_fatal (fun _ => .produce) .produce 50 0
    (fun _ => (.eok, false)) false 0 _ rfl
  refine ⟨h.1, ?_, ?_⟩
  · exact (h.2.2.1 (by simp [KR_ITER_LIMIT]) (by rw [hmodel]; simp [KR_ITER_LIMIT])).1
  · exact (h.2.2.1 (by simp [KR_ITER_LIMIT]) (by rw [hmodel]; simp [KR_ITER_LIMIT])).2 rfl

/-! ## Inbound packets, `parse_packet` and `worker_exec`
(`daemon/worker.c:675,694`)

A parsed-or-not client packet is embedded by the observations the worker
makes of it: whether `knot_pkt_parse` succeeds, whether it parsed fewer
bytes than it received, the QR header bit, and the EDNS OPT presence and
payload used by `qr_task_create`. -/

structure QPacket where
  parseOk : Bool
  parsedLtSize : Bool
  qr : Bool
  hasEdns : Bool
  payload : Nat
deriving DecidableEq, Repr

inductive ParseRet where
  | ok
  | einval
  | eproto
  | emsgsize
deriving DecidableEq, Repr

/-- `parse_packet`: a null packet is EINVAL, a failed `knot_pkt_parse`
is EPROTO, a short parse is EMSGSIZE. -/
def parse_packet : Option QPacket → ParseRet
  | none => .einval
  | some q =>
    if q.parseOk = false then .eproto
    else if q.parsedLtSize = true then .emsgsize
    else .ok

inductive ExecRet where
  | einval
  | stepped
deriving DecidableEq, Repr

/-- Observable outcome of `worker_exec`: its return, the `dropped`
counter, whether a task was created, and how many packets went out. -/
structure ExecOut where
  ret : ExecRet
  dropped : Nat
  taskCreated : Bool
  sent : Nat
deriving DecidableEq, Repr

/-- `worker_exec`: null worker/handle is EINVAL; on a master socket (no
task attached to the handle) a missing, unparseable or QR=1 packet bumps
`stats.dropped` and returns EINVAL without creating a task or sending
anything; otherwise a task is created and stepped.  `stepSends`
abstracts whatever the ensuing `qr_task_step` transmits. -/
def worker_exec (workerAndHandle : Bool) (taskAttached : Bool) (dropped : Nat)
    (stepSends : Nat) (q : Option QPacket) : ExecOut :=
  if workerAndHandle = false then
    ⟨.einval, dropped, false, 0⟩
  else if taskAttached = false then
    if q = none ∨ parse_packet q ≠ .ok ∨ (q.map QPacket.qr).getD false = true then
      ⟨.einval, dropped + 1, false, 0⟩
    else
      ⟨.stepped, dropped, true, stepSends⟩
  else
    ⟨.stepped, dropped, false, stepSends⟩

/-! ## Answer size negotiation in `qr_task_create` (`daemon/worker.c:216`) -/

def KNOT_WIRE_MIN_PKTSIZE : Nat := 512
def KNOT_WIRE_MAX_PKTSIZE : Nat := 65535

/-- Modelled from the spec: `KR_EDNS_PAYLOAD` lives in `lib/defines.h`,
which is not among the sources; the spec uses it as the upper endpoint
of the clamp interval `[MIN_PKTSIZE, EDNS_PAYLOAD]` and as the default
subquery buffer size, distinct from the maximum packet size, i.e. the
standard EDNS buffer size of 4096 octets. -/
def KR_EDNS_PAYLOAD : Nat := 4096

/-- The `answer_max` computation of `qr_task_create`: a TCP client
(`!addr && handle`) gets the maximum DNS packet size; a UDP client with
EDNS gets `MAX(opt payload, KNOT_WIRE_MIN_PKTSIZE)`; plain UDP gets
`KNOT_WIRE_MIN_PKTSIZE`. -/
def qr_task_create_answer_max (handle addrPresent : Bool) (q : QPacket) : Nat :=
  if addrPresent = false ∧ handle = true then
    KNOT_WIRE_MAX_PKTSIZE
  else if q.hasEdns = true then
    max q.payload KNOT_WIRE_MIN_PKTSIZE
  else
    KNOT_WIRE_MIN_PKTSIZE

/-- The claim's formula for the same quantity: the EDNS payload clamped
to the interval `[KNOT_WIRE_MIN_PKTSIZE, KR_EDNS_PAYLOAD]`. -/
def answer_max_claimed (isTcp hasEdns : Bool) (payload : Nat) : Nat :=
  if isTcp = true then
    KNOT_WIRE_MAX_PKTSIZE
  else if hasEdns = true then
    min (max payload KNOT_WIRE_MIN_PKTSIZE) KR_EDNS_PAYLOAD
  else
    KNOT_WIRE_MIN_PKTSIZE

/-! ## Theorems: claim C7 -/

/-- C7. On a master socket (handle with no task attached), a missing
packet, a packet that fails to parse, or a packet with the QR bit set is
dropped silently: `stats.dropped` is incremented, no task is created, no
packet is sent, and EINVAL is returned — and `dropped` is incremented in
exactly those cases. -/
theorem worker_exec_drops_bad_master_input
    (dropped stepSends : Nat) (q : Option QPacket) (out : ExecOut)
    (hout : out = worker_exec true false dropped stepSends q) :
    ((q = none ∨ parse_packet q ≠ .ok ∨ (q.map QPacket.qr).getD false = true) →
      out = ⟨.einval, dropped + 1, false, 0⟩) ∧
    (out.dropped = dropped + 1 ↔
      (q = none ∨ parse_packet q ≠ .ok ∨ (q.map QPacket.qr).getD false = true)) := by
  subst hout
  unfold worker_exec
  by_cases h : q = none ∨ parse_packet q ≠ .ok ∨ (q.map QPacket.qr).getD false = true
  · simp [h]
  · simp [h]

/-- Witness for C7: a well-formed packet with QR=1 arriving on the
master socket is dropped with `dropped` going from 3 to 4. -/
theorem worker_exec_drops_bad_master_input_witness :
    (some (⟨true, false, true, false, 0⟩ : QPacket) = none ∨
      parse_packet (some ⟨true, false, true, false, 0⟩) ≠ .ok ∨
      ((some (⟨true, false, true, false, 0⟩ : QPacket)).map QPacket.qr).getD false = true) ∧
    worker_exec true false 3 5 (some ⟨true, false, true, false, 0⟩) =
      ⟨.einval, 4, false, 0⟩ := by
  have h := worker_exec_drops_bad_master_input 3 5
    (some ⟨true, false, true, false, 0⟩) _ rfl
  exact ⟨by decide, h.1 (by decide)⟩

/-! ## Theorems: claim C8 -/

/-- C8 counterexample. The claim's clamp to
`[KNOT_WIRE_MIN_PKTSIZE, KR_EDNS_PAYLOAD]` does not hold: a UDP client
advertising an OPT payload of 65535 gets an answer buffer of 65535
bytes, not `KR_EDNS_PAYLOAD`; the code applies no upper clamp. -/
theorem qr_task_create_answer_max_not_clamped :
    qr_task_create_answer_max true true ⟨true, false, false, true, 65535⟩ = 65535 ∧
    answer_max_claimed false true 65535 = 4096 ∧
    ¬ (qr_task_create_answer_max true true ⟨true, false, false, true, 65535⟩ =
        answer_max_claimed false true 65535) := by
  refine ⟨by decide, by decide, by decide⟩

/-- C8 amended. The maximum answer size is: the maximum DNS packet size
for a TCP client; `max(opt payload, KNOT_WIRE_MIN_PKTSIZE)` for a UDP
client with EDNS — a clamp from below only, which agrees with the
claimed interval clamp whenever the payload is at most
`KR_EDNS_PAYLOAD`; and `KNOT_WIRE_MIN_PKTSIZE` for plain UDP. -/
theorem qr_task_create_answer_max_cases (handle addrPresent : Bool) (q : QPacket) :
    (addrPresent = false ∧ handle = true →
      qr_task_create_answer_max handle addrPresent q = KNOT_WIRE_MAX_PKTSIZE) ∧
    (¬ (addrPresent = false ∧ handle = true) → q.hasEdns = true →
      qr_task_create_answer_max handle addrPresent q =
        max q.payload KNOT_WIRE_MIN_PKTSIZE ∧
      KNOT_WIRE_MIN_PKTSIZE ≤ qr_task_create_answer_max handle addrPresent q ∧
      (q.payload ≤ KR_EDNS_PAYLOAD →
        qr_task_create_answer_max handle addrPresent q =
          answer_max_claimed false true q.payload)) ∧
    (¬ (addrPresent = false ∧ handle = true) → q.hasEdns = false →
      qr_task_create_answer_max handle addrPresent q = KNOT_WIRE_MIN_PKTSIZE) := by
  refine ⟨?_, ?_, ?_⟩
  · intro h
    simp [qr_task_create_answer_max, h]
  · intro h he
    refine ⟨by simp [qr_task_create_answer_max, h, he], ?_, ?_⟩
    · simp [qr_task_create_answer_max, h, he]
    · intro hp
      have hmin : min (max q.payload KNOT_WIRE_MIN_PKTSIZE) KR_EDNS_PAYLOAD =
          max q.payload KNOT_WIRE_MIN_PKTSIZE := by
        have h1 : KNOT_WIRE_MIN_PKTSIZE ≤ KR_EDNS_PAYLOAD := by decide
        have h2 : max q.payload KNOT_WIRE_MIN_PKTSIZE ≤ KR_EDNS_PAYLOAD := by
          simp [KNOT_WIRE_MIN_PKTSIZE, KR_EDNS_PAYLOAD] at hp ⊢
          omega
        omega
      simp [qr_task_create_answer_max, answer_max_claimed, h, he, hmin]
  · intro h he
    simp [qr_task_create_answer_max, h, he]

/-- Witness for C8 (amended): a UDP client with an OPT payload of 1280
gets `max 1280 512 = 1280`, matching the claimed clamp since
`1280 ≤ 4096`; a TCP client gets 65535. -/
theorem qr_task_create_answer_max_cases_witness :
    qr_task_create_answer_max false true ⟨true, false, false, true, 1280⟩ =
      max 1280 KNOT_WIRE_MIN_PKTSIZE ∧
    qr_task_create_answer_max false true ⟨true, false, false, true, 1280⟩ =
      answer_max_claimed false true 1280 ∧
    qr_task_create_answer_max true false ⟨true, false, false, false, 0⟩ =
      KNOT_WIRE_MAX_PKTSIZE := by
  have h1 := qr_task_create_answer_max_cases false true
    ⟨true, false, false, true, 1280⟩
  have h2 := qr_task_create_answer_max_cases true false
    ⟨true, false, false, false, 0⟩
  have hx := h1.2.1 (by simp) rfl
  exact ⟨hx.1, hx.2.2 (by decide), h2.1 ⟨rfl, rfl⟩⟩

end KnotResolver
